import Mathlib

/-!
Verification development for `ai_medical_imaging.py`, a single-file
Streamlit application that uploads a medical image, sends it with a fixed
prompt to a multimodal model through a two-node LangGraph orchestration
graph (chatbot node + tool node), and renders the textual answer.

The UI/run-handler logic (upload, message construction, output
extraction, error display, temp-file cleanup) is embedded directly from
the source.  The orchestration loop itself (LangGraph's `ToolNode`,
`tools_condition` and `invoke`) is library code not present in the
repository; it is modelled from the specification's §4.1 transition
function (REASON / ACT / DONE) where indicated.
-/

namespace MedImaging

/-- A content part of a user message, as built at
`ai_medical_imaging.py` lines 194-210: either a text part or an
image-url part with a detail level. -/
inductive Part where
  | text (s : String)
  | imageUrl (url : String) (detail : String)
  deriving DecidableEq, Repr

/-- A tool-call request emitted by the model: identifier, tool name and
arguments (spec §3, `ToolCallRequest`). -/
structure ToolCallRequest where
  id : String
  name : String
  args : String
  deriving DecidableEq, Repr

/-- A message of the conversation held in the LangGraph state
(`State.messages`): a user message with content parts, an assistant
message with text content and tool-call requests, or a tool-result
message correlated to a request id (spec §3 tagged variant; these are
exactly the LangChain message kinds that flow through the graph built
at lines 91-100). -/
inductive Message where
  | user (parts : List Part)
  | assistant (content : String) (toolCalls : List ToolCallRequest)
  | toolResult (callId : String) (content : String)
  deriving DecidableEq, Repr

/-- Modelled from the spec: the `type` tag the underlying graph library
attaches to each message kind (`"human"`, `"ai"`, `"tool"`); spec §9
notes that tool-result messages carry a tag that is NOT `"tool_call"`. -/
def Message.typeTag : Message → String
  | .user _ => "human"
  | .assistant _ _ => "ai"
  | .toolResult _ _ => "tool"

/-- The `content` attribute read by the extraction loop at lines
222-228 (for a user message the loop never reads it, so the value
chosen for that case is irrelevant to the extraction result). -/
def Message.contentStr : Message → String
  | .user _ => ""
  | .assistant c _ => c
  | .toolResult _ c => c

/-- One iteration of the extraction loop at lines 220-228: append the
content of an `"ai"` message when non-empty, append a decorated tool
result for a `"tool_call"` message when non-empty, ignore the rest. -/
def extractStep (acc : String) (m : Message) : String :=
  if m.typeTag = "ai" then
    if m.contentStr ≠ "" then acc ++ m.contentStr else acc
  else if m.typeTag = "tool_call" then
    if m.contentStr ≠ "" then
      acc ++ "\n\n### Tool Result:\n" ++ m.contentStr
    else acc
  else acc

/-- `combined_response` after the loop at lines 219-228: left fold of
`extractStep` over the result conversation, starting from `""`. -/
def combinedResponse (msgs : List Message) : String :=
  msgs.foldl extractStep ""

/-- The content contributed by a message when only AI messages count:
the assistant content, `""` otherwise. -/
def aiContent : Message → String
  | .assistant c _ => c
  | _ => ""

/-- Concatenation of the AI messages' contents of a conversation. -/
def aiConcat (msgs : List Message) : String :=
  msgs.foldl (fun acc m => acc ++ aiContent m) ""

/-- The fixed local path of the transient image copy (line 168). -/
def image_path : String := "temp_medical_image.png"

/-- Python's `str.strip()` (used on `combined_response` at line 231):
drop leading and trailing whitespace. -/
def pythonStrip (s : String) : String :=
  (((s.data.dropWhile Char.isWhitespace).reverse.dropWhile
    Char.isWhitespace).reverse).asString

/-- Whether `needle` occurs as a contiguous substring of `hay`. -/
def containsChars (hay needle : List Char) : Bool :=
  hay.tails.any (fun t => needle.isPrefixOf t)

/-- Modelled from the spec: PIL `Image.save` with no explicit format
argument infers the output format from the file extension of the path
(the repository's save call at line 169 passes only the path); `.png`
maps to PNG, `.jpg`/`.jpeg` to JPEG. -/
def formatFromExtension (p : String) : Option String :=
  if List.isSuffixOf ".png".data p.data then some "PNG"
  else if List.isSuffixOf ".jpg".data p.data
      || List.isSuffixOf ".jpeg".data p.data then some "JPEG"
  else none

/-- The upload widget's accepted extensions (line 159). -/
def acceptedTypes : List String := ["jpg", "jpeg", "png"]

/-- The fixed instruction prompt defined at lines 107-144 (content
abbreviated to its opening line; no claim depends on the prompt text,
only on its position as the first part of the user message). -/
def query : String :=
  "You are a highly skilled university professor of radiology and medical imaging with extensive knowledge in diagnostic imaging."

/-- The initial user message content built at lines 194-210: a text
part holding the fixed prompt, then one image-url part with a base64
PNG data url and detail `"low"`. -/
def initialUserMessage (encoded : String) : List Part :=
  [ Part.text query,
    Part.imageUrl ("data:image/png;base64," ++ encoded) "low" ]

/-- What the run handler writes to the page: `st.markdown`, `st.error`
or `st.warning` output. -/
inductive Display where
  | markdown (s : String)
  | error (s : String)
  | warning (s : String)
  deriving DecidableEq, Repr

/-- Outcome of `medical_agent.invoke(state)` as seen by the `try`
block: either a result conversation or a raised exception rendered by
its description string. -/
inductive AgentOutcome where
  | success (messages : List Message)
  | failure (description : String)
  deriving DecidableEq, Repr

/-- Result of one analysis run: what was displayed, whether the temp
file still exists afterwards, and whether the model client was
invoked. -/
structure RunOutput where
  displays : List Display
  tempFileExists : Bool
  modelInvoked : Bool
  deriving DecidableEq, Repr

/-- The analysis run handler, lines 189-243: inside `try`, if a
`medical_agent` was compiled (which happens exactly when an API key is
configured, lines 71-102) invoke it and either render the extracted
response, or the missing-content error when the stripped extraction is
empty; an exception is caught and rendered as `Analysis error: ...`;
with no agent a warning is shown instead.  The `finally` block removes
the temp file when it exists (lines 240-243). -/
def analyzeRun (apiKey : Option String) (invoke : AgentOutcome)
    (fsTempExists : Bool) : RunOutput :=
  let tryResult : List Display × Bool :=
    match apiKey with
    | some _ =>
      (match invoke with
       | .success msgs =>
         let combined := combinedResponse msgs
         if pythonStrip combined ≠ "" then
           ([.markdown "### 📋 Analysis Results", .markdown combined], true)
         else
           ([.error "AI response content is missing or improperly formatted."], true)
       | .failure e => ([.error ("Analysis error: " ++ e)], true))
    | none =>
      ([.warning "No agent is configured. Please ensure you have provided your OpenAI key."], false)
  { displays := tryResult.1
    tempFileExists := if fsTempExists then false else fsTempExists
    modelInvoked := tryResult.2 }

/-! ### Orchestration loop (spec §4.1), modelled from the spec

The graph wired at lines 91-100 (`chatbot` node, `ToolNode`,
`tools_condition`, `tools → chatbot` edge) delegates its execution
semantics to the LangGraph library, which is not part of the
repository.  The definitions below model that loop from the spec's
§4.1 transition function: REASON invokes the model client and appends
its assistant message; when it carries tool-call requests, ACT answers
each request in declaration order and returns to REASON; otherwise the
loop is DONE with the assistant's text.  A fuel parameter realises the
iteration cap of spec §9 (abort with a reported failure when
exceeded). -/

/-- Modelled from the spec: the model client (spec §4.3) as a function
of the reasoning-step index and the current conversation, returning
the assistant message's text content and tool-call requests. -/
abbrev ModelClient : Type :=
  Nat → List Message → String × List ToolCallRequest

/-- Modelled from the spec: the tool adapter (spec §4.2): a request
maps to a text result or a failure description. -/
abbrev ToolAdapter : Type := ToolCallRequest → Except String String

/-- The text payload a tool invocation contributes: the tool's output
on success, the failure description on failure (spec §4.1 ACT). -/
def toolOutput (tool : ToolAdapter) (r : ToolCallRequest) : String :=
  match tool r with
  | .ok out => out
  | .error e => e

/-- Modelled from the spec: the ACT transition answers each tool-call
request of the most recent assistant message, in declaration order,
with a tool-result message correlated by id (spec §4.1). -/
def actStep (tool : ToolAdapter) (reqs : List ToolCallRequest) :
    List Message :=
  reqs.map (fun r => Message.toolResult r.id (toolOutput tool r))

/-- Result of a run of the orchestration loop: the outcome (final text,
or a reported failure when the iteration cap was exceeded), the final
conversation, and the number of REASON and ACT transitions taken. -/
structure LoopResult where
  outcome : Except String String
  conv : List Message
  reasonCount : Nat
  actCount : Nat
  deriving Repr

/-- Modelled from the spec: the REASON/ACT/DONE loop of spec §4.1 with
the iteration cap of spec §9.  `fuel` is the number of reasoning steps
still allowed; `reasons` doubles as the index of the next reasoning
step. -/
def runLoop (model : ModelClient) (tool : ToolAdapter) :
    Nat → List Message → Nat → Nat → LoopResult
  | 0, conv, reasons, acts =>
    ⟨.error "maximum iterations exceeded", conv, reasons, acts⟩
  | fuel + 1, conv, reasons, acts =>
    let resp := model reasons conv
    let convR := conv ++ [Message.assistant resp.1 resp.2]
    if resp.2.isEmpty then
      ⟨.ok resp.1, convR, reasons + 1, acts⟩
    else
      runLoop model tool fuel (convR ++ actStep tool resp.2)
        (reasons + 1) (acts + 1)

/-- The tool-call request ids declared by one message. -/
def reqIds (m : Message) : List String :=
  match m with
  | .assistant _ reqs => reqs.map (fun r => r.id)
  | _ => []

/-- All tool-call request ids of a conversation, in order. -/
def requestIds (conv : List Message) : List String :=
  conv.flatMap reqIds

/-- All tool-result correlation ids of a conversation, in order. -/
def resultIds (conv : List Message) : List String :=
  conv.filterMap
    (fun m => match m with | .toolResult i _ => some i | _ => none)

/-- Checks that every tool-result message is preceded by a tool-call
request with the same id: `seen` accumulates the request ids of the
messages already passed. -/
def resultsAnswerPrior (seen : List String) : List Message → Bool
  | [] => true
  | .toolResult i _ :: rest =>
    seen.contains i && resultsAnswerPrior seen rest
  | .assistant _ reqs :: rest =>
    resultsAnswerPrior (seen ++ reqs.map (fun r => r.id)) rest
  | .user _ :: rest => resultsAnswerPrior seen rest

/-- Strengthening of `resultsAnswerPrior`: every tool-result message
matches EXACTLY one prior tool-call request id. -/
def resultsMatchUnique (seen : List String) : List Message → Bool
  | [] => true
  | .toolResult i _ :: rest =>
    ((seen.filter (fun j => decide (j = i))).length == 1)
      && resultsMatchUnique seen rest
  | .assistant _ reqs :: rest =>
    resultsMatchUnique (seen ++ reqs.map (fun r => r.id)) rest
  | .user _ :: rest => resultsMatchUnique seen rest

/-- Checks that every tool-call request of the conversation has a
matching tool-result message somewhere in it. -/
def requestsAllAnswered (conv : List Message) : Bool :=
  (requestIds conv).all (fun i => (resultIds conv).contains i)

/-! ### Stub clients and tools used to exercise the loop
(the spec's §8 test stubs). -/

/-- The initial conversation of a run: the single user message built
at lines 194-210. -/
def conv0 : List Message :=
  [Message.user (initialUserMessage "QkFTRTY0")]

/-- Stub model client of spec §8: requests a tool on reasoning steps 0
and 1, answers directly on every later step. -/
def stubModel2 : ModelClient
  | 0, _ => ("", [⟨"call_0", "duckduckgo_search", "q0"⟩])
  | 1, _ => ("", [⟨"call_1", "duckduckgo_search", "q1"⟩])
  | _ + 2, _ => ("final", [])

/-- Stub model client of spec §8 that requests a tool on every
reasoning step. -/
def alwaysToolModel : ModelClient :=
  fun s _ => ("", [⟨"call_" ++ toString s, "duckduckgo_search", "q"⟩])

/-- Whether a conversation already contains a tool-result message. -/
def hasToolResult (conv : List Message) : Bool :=
  conv.any fun m =>
    match m with | .toolResult _ _ => true | _ => false

/-- Stub model client of spec §8's tool-failure test: requests a tool
until a tool result exists in the conversation, then answers with the
fallback text. -/
def fallbackModel : ModelClient := fun _ conv =>
  if hasToolResult conv then ("fallback", [])
  else ("", [⟨"call_a", "duckduckgo_search", "query"⟩])

/-- Stub tool adapter that always succeeds. -/
def okTool : ToolAdapter := fun _ => .ok "search result"

/-- Stub tool adapter that always fails. -/
def failTool : ToolAdapter := fun _ => .error "network failure"

/-! ### Theorems -/

/-- The per-message effect of the extraction loop equals appending the
message's AI content: the `"tool_call"` branch can never fire because
no message kind carries that tag. -/
theorem extractStep_eq (acc : String) (m : Message) :
    extractStep acc m = acc ++ aiContent m := by
  cases m with
  | user parts =>
    simp [extractStep, Message.typeTag, aiContent, String.append_empty]
  | assistant c reqs =>
    by_cases h : c = "" <;>
      simp [extractStep, Message.typeTag, Message.contentStr, aiContent, h,
        String.append_empty]
  | toolResult i c =>
    simp [extractStep, Message.typeTag, aiContent, String.append_empty]

/-- C1: every analysis run that starts (Analyze pressed with an
uploaded image) ends with the transient local copy at
`temp_medical_image.png` removed, on every exit path — success, raised
error, or missing agent — because the cleanup sits in the `finally`
block. -/
theorem c1_temp_file_removed_on_every_exit_path (apiKey : Option String)
    (invoke : AgentOutcome) (fsTempExists : Bool) :
    (analyzeRun apiKey invoke fsTempExists).tempFileExists = false := by
  cases fsTempExists <;> rfl

/-- C2: the `message.type == "tool_call"` branch of the extraction
loop matches no message kind the orchestration graph produces
(tool-result messages carry the tag `"tool"`), so the combined
response is exactly the concatenation of the AI messages' contents. -/
theorem c2_tool_call_branch_never_matches :
    (∀ m : Message, m.typeTag ≠ "tool_call") ∧
    (Message.toolResult "id" "out").typeTag = "tool" ∧
    ∀ msgs : List Message, combinedResponse msgs = aiConcat msgs := by
  refine ⟨?_, rfl, ?_⟩
  · intro m; cases m <;> simp [Message.typeTag]
  · intro msgs
    unfold combinedResponse aiConcat
    exact List.foldl_ext extractStep (fun acc m => acc ++ aiContent m) ""
      (fun acc m _ => extractStep_eq acc m)

/-- Witness for C2 on a concrete result conversation holding one AI
message and one tool-result message: the tool-result tag is not
`"tool_call"` and the combined response is the AI content alone. -/
theorem c2_tool_call_branch_never_matches_witness :
    (Message.toolResult "id0" "tool output").typeTag ≠ "tool_call" ∧
    combinedResponse
      [Message.assistant "Report" [], Message.toolResult "id0" "tool output"] =
      aiConcat
        [Message.assistant "Report" [], Message.toolResult "id0" "tool output"] :=
  ⟨c2_tool_call_branch_never_matches.1 (Message.toolResult "id0" "tool output"),
   c2_tool_call_branch_never_matches.2.2
     [Message.assistant "Report" [], Message.toolResult "id0" "tool output"]⟩

/-- C3: with no API key configured there is no compiled agent, so a
run never invokes the model client, displays the configuration
warning, and renders no analysis output. -/
theorem c3_no_credential_never_invokes_model (invoke : AgentOutcome)
    (fs : Bool) :
    (analyzeRun none invoke fs).modelInvoked = false ∧
    Display.warning
        "No agent is configured. Please ensure you have provided your OpenAI key."
      ∈ (analyzeRun none invoke fs).displays ∧
    ∀ s : String,
      Display.markdown s ∉ (analyzeRun none invoke fs).displays := by
  refine ⟨rfl, ?_, ?_⟩
  · simp [analyzeRun]
  · intro s; simp [analyzeRun]

/-- Witness for C3 at a concrete run with no credential: the model is
not invoked, the warning is shown and no markdown output appears. -/
theorem c3_no_credential_never_invokes_model_witness :
    (analyzeRun none (.success []) true).modelInvoked = false ∧
    Display.warning
        "No agent is configured. Please ensure you have provided your OpenAI key."
      ∈ (analyzeRun none (.success []) true).displays ∧
    Display.markdown "### 📋 Analysis Results"
      ∉ (analyzeRun none (.success []) true).displays := by
  have h := c3_no_credential_never_invokes_model (.success []) true
  exact ⟨h.1, h.2.1, h.2.2 "### 📋 Analysis Results"⟩

/-- C9 as stated is false: the error message the run displays when the
extracted output is empty is `"AI response content is missing or
improperly formatted."`, which is not the claimed `"response missing
or improperly formatted"` and does not even contain that phrase as a
contiguous substring. -/
theorem c9_counterexample :
    (analyzeRun (some "key") (.success []) true).displays =
      [Display.error "AI response content is missing or improperly formatted."] ∧
    Display.error "response missing or improperly formatted"
      ∉ (analyzeRun (some "key") (.success []) true).displays ∧
    containsChars "AI response content is missing or improperly formatted.".data
      "response missing or improperly formatted".data = false := by
  refine ⟨by decide, by decide, by decide⟩

/-- C9 amended: when the extracted combined response strips to the
empty string, the run reports the human-readable message `"AI response
content is missing or improperly formatted."` instead of crashing. -/
theorem c9_empty_extraction_reports_missing (apiKey : String)
    (msgs : List Message) (h : pythonStrip (combinedResponse msgs) = "")
    (fs : Bool) :
    (analyzeRun (some apiKey) (.success msgs) fs).displays =
      [Display.error "AI response content is missing or improperly formatted."] := by
  simp [analyzeRun, h]

/-- Witness for the amended C9 at the empty result conversation. -/
theorem c9_empty_extraction_reports_missing_witness :
    pythonStrip (combinedResponse []) = "" ∧
    (analyzeRun (some "key2") (.success []) false).displays =
      [Display.error "AI response content is missing or improperly formatted."] :=
  ⟨by decide, c9_empty_extraction_reports_missing "key2" [] (by decide) false⟩

/-- C10: every accepted upload is re-saved at the single fixed path
`temp_medical_image.png`, whose `.png` extension makes the save
produce PNG; the user message sent to the model has exactly two parts,
the text prompt first and then a self-contained base64 data url
declared as `data:image/png` with detail `"low"`. -/
theorem c10_fixed_path_png_message_shape (encoded : String) :
    image_path = "temp_medical_image.png" ∧
    formatFromExtension image_path = some "PNG" ∧
    initialUserMessage encoded =
      [Part.text query,
       Part.imageUrl ("data:image/png;base64," ++ encoded) "low"] :=
  ⟨rfl, by decide, rfl⟩

/-- C4: if the model client at some finite reasoning step `k` answers
with no tool-call requests, the loop reaches DONE (an `ok` outcome)
whenever enough fuel remains. -/
theorem c4_eventual_answer_reaches_done (model : ModelClient)
    (tool : ToolAdapter) (k : Nat)
    (hk : ∀ c, (model k c).2 = []) :
    ∀ fuel conv reasons acts, reasons ≤ k → k - reasons < fuel →
      ∃ t, (runLoop model tool fuel conv reasons acts).outcome =
        Except.ok t := by
  intro fuel
  induction fuel with
  | zero => intro conv reasons acts h1 h2; omega
  | succ n ih =>
    intro conv reasons acts h1 h2
    by_cases he : (model reasons conv).2.isEmpty
    · exact ⟨(model reasons conv).1, by simp [runLoop, he]⟩
    · have hne : reasons ≠ k := by
        intro hq
        subst hq
        exact he (by simp [hk conv])
      have h1' : reasons + 1 ≤ k := by omega
      have h2' : k - (reasons + 1) < n := by omega
      have hrec := ih
        ((conv ++ [Message.assistant (model reasons conv).1
            (model reasons conv).2]) ++ actStep tool (model reasons conv).2)
        (reasons + 1) (acts + 1) h1' h2'
      simpa [runLoop, he] using hrec

/-- Witness for C4: the stub model that requests a tool on reasoning
steps 0 and 1 and answers directly on step 2 terminates in DONE with
the final text after exactly 2 ACT transitions (and 3 REASON
transitions). -/
theorem c4_eventual_answer_reaches_done_witness :
    (∃ t, (runLoop stubModel2 okTool 5 conv0 0 0).outcome =
      Except.ok t) ∧
    (runLoop stubModel2 okTool 5 conv0 0 0).outcome = Except.ok "final" ∧
    (runLoop stubModel2 okTool 5 conv0 0 0).actCount = 2 ∧
    (runLoop stubModel2 okTool 5 conv0 0 0).reasonCount = 3 := by
  refine ⟨c4_eventual_answer_reaches_done stubModel2 okTool 2
    (fun c => rfl) 5 conv0 0 0 (by decide) (by decide), rfl, rfl, rfl⟩

/-- C5: with a model client that requests a tool on every reasoning
step, the loop run with an iteration cap of `N` performs exactly `N`
reasoning steps and aborts with a reported failure instead of looping
forever. -/
theorem c5_cap_aborts_always_tool (model : ModelClient)
    (tool : ToolAdapter) (h : ∀ s c, (model s c).2 ≠ []) :
    ∀ N conv reasons acts,
      (runLoop model tool N conv reasons acts).outcome =
        Except.error "maximum iterations exceeded" ∧
      (runLoop model tool N conv reasons acts).reasonCount =
        reasons + N := by
  intro N
  induction N with
  | zero => intro conv reasons acts; exact ⟨rfl, rfl⟩
  | succ n ih =>
    intro conv reasons acts
    have he : ¬((model reasons conv).2.isEmpty = true) := by
      simpa using h reasons conv
    have hstep : runLoop model tool (n + 1) conv reasons acts =
        runLoop model tool n
          ((conv ++ [Message.assistant (model reasons conv).1
              (model reasons conv).2]) ++ actStep tool (model reasons conv).2)
          (reasons + 1) (acts + 1) := by
      simp [runLoop, he]
    have hrec := ih
      ((conv ++ [Message.assistant (model reasons conv).1
          (model reasons conv).2]) ++ actStep tool (model reasons conv).2)
      (reasons + 1) (acts + 1)
    rw [hstep]
    exact ⟨hrec.1, by rw [hrec.2]; omega⟩

/-- Witness for C5: the always-requesting stub model with cap 3 aborts
with the reported failure after exactly 3 reasoning steps. -/
theorem c5_cap_aborts_always_tool_witness :
    (runLoop alwaysToolModel okTool 3 conv0 0 0).outcome =
      Except.error "maximum iterations exceeded" ∧
    (runLoop alwaysToolModel okTool 3 conv0 0 0).reasonCount = 0 + 3 :=
  c5_cap_aborts_always_tool alwaysToolModel okTool
    (fun s c => by simp [alwaysToolModel]) 3 conv0 0 0

/-- C6: a tool failure is non-fatal: the failing request is answered
by a tool-result message carrying the failure description, and the
loop transitions back to REASON (it recurses rather than aborting). -/
theorem c6_tool_failure_nonfatal (tool : ToolAdapter)
    (r : ToolCallRequest) (e : String)
    (hfail : tool r = Except.error e)
    (reqs : List ToolCallRequest) (hmem : r ∈ reqs) :
    Message.toolResult r.id e ∈ actStep tool reqs ∧
    ∀ (model : ModelClient) (c : String) (conv : List Message)
      (fuel reasons acts : Nat), model reasons conv = (c, reqs) →
      runLoop model tool (fuel + 1) conv reasons acts =
        runLoop model tool fuel
          ((conv ++ [Message.assistant c reqs]) ++ actStep tool reqs)
          (reasons + 1) (acts + 1) := by
  constructor
  · have hout : toolOutput tool r = e := by simp [toolOutput, hfail]
    exact List.mem_map.mpr ⟨r, hmem, by simp [hout]⟩
  · intro model c conv fuel reasons acts hm
    have hne : ¬(reqs.isEmpty = true) := by
      cases reqs with
      | nil => cases hmem
      | cons a l => simp
    simp [runLoop, hm, hne]

/-- Witness for C6: the always-failing tool stub answers request
`call_a` with the failure text, and the loop driven by the fallback
stub model still reaches DONE with the fallback answer. -/
theorem c6_tool_failure_nonfatal_witness :
    Message.toolResult "call_a" "network failure" ∈
      actStep failTool [⟨"call_a", "duckduckgo_search", "query"⟩] ∧
    (runLoop fallbackModel failTool 5 conv0 0 0).outcome =
      Except.ok "fallback" := by
  refine ⟨?_, rfl⟩
  exact (c6_tool_failure_nonfatal failTool
    ⟨"call_a", "duckduckgo_search", "query"⟩ "network failure" rfl
    [⟨"call_a", "duckduckgo_search", "query"⟩] (by decide)).1

/-- Request ids distribute over conversation concatenation. -/
theorem requestIds_append (a b : List Message) :
    requestIds (a ++ b) = requestIds a ++ requestIds b := by
  simp [requestIds]

/-- Result ids distribute over conversation concatenation. -/
theorem resultIds_append (a b : List Message) :
    resultIds (a ++ b) = resultIds a ++ resultIds b := by
  simp [resultIds]

/-- The ACT step declares no new tool-call requests. -/
theorem actStep_requestIds (tool : ToolAdapter) :
    ∀ reqs : List ToolCallRequest,
      requestIds (actStep tool reqs) = [] := by
  intro reqs
  induction reqs with
  | nil => rfl
  | cons r rest ih =>
    simp [actStep, requestIds, reqIds] at ih ⊢

/-- The ACT step answers exactly the requested ids, in declaration
order. -/
theorem actStep_resultIds (tool : ToolAdapter) :
    ∀ reqs : List ToolCallRequest,
      resultIds (actStep tool reqs) = reqs.map (fun r => r.id) := by
  intro reqs
  induction reqs with
  | nil => rfl
  | cons r rest ih =>
    simpa [actStep, resultIds] using ih

/-- Splitting the prior-request check across concatenation. -/
theorem resultsAnswerPrior_append (a : List Message) :
    ∀ (seen : List String) (b : List Message),
      resultsAnswerPrior seen (a ++ b) =
        (resultsAnswerPrior seen a
          && resultsAnswerPrior (seen ++ requestIds a) b) := by
  induction a with
  | nil => intro seen b; simp [resultsAnswerPrior, requestIds]
  | cons m rest ih =>
    intro seen b
    cases m with
    | user parts => simp [resultsAnswerPrior, requestIds, reqIds, ih]
    | assistant c reqs =>
      simp [resultsAnswerPrior, requestIds, reqIds, ih, List.append_assoc]
    | toolResult i c =>
      simp [resultsAnswerPrior, requestIds, reqIds, ih, Bool.and_assoc]

/-- When every requested id is among the already-seen request ids, the
ACT step's results all answer prior requests. -/
theorem actStep_answers (tool : ToolAdapter) :
    ∀ (reqs : List ToolCallRequest) (seen : List String),
      (∀ r ∈ reqs, r.id ∈ seen) →
      resultsAnswerPrior seen (actStep tool reqs) = true := by
  intro reqs
  induction reqs with
  | nil => intro seen h; rfl
  | cons r rest ih =>
    intro seen h
    have h1 : r.id ∈ seen := h r (List.mem_cons_self r rest)
    have h2 := ih seen (fun x hx => h x (List.mem_cons_of_mem r hx))
    simp [actStep] at h2 ⊢
    simp [resultsAnswerPrior, h1, h2]

/-- One REASON+ACT round preserves both conversation invariants:
results answer prior requests, and all requests are answered. -/
theorem step_preserves_invariants (tool : ToolAdapter)
    (conv : List Message) (c : String) (reqs : List ToolCallRequest)
    (h1 : resultsAnswerPrior [] conv = true)
    (h2 : requestsAllAnswered conv = true) :
    resultsAnswerPrior []
      ((conv ++ [Message.assistant c reqs]) ++ actStep tool reqs) = true ∧
    requestsAllAnswered
      ((conv ++ [Message.assistant c reqs]) ++ actStep tool reqs) = true := by
  constructor
  · rw [resultsAnswerPrior_append, resultsAnswerPrior_append]
    have ha : resultsAnswerPrior (requestIds conv)
        [Message.assistant c reqs] = true := rfl
    have hb : resultsAnswerPrior
        (requestIds (conv ++ [Message.assistant c reqs]))
        (actStep tool reqs) = true := by
      apply actStep_answers
      intro r hr
      rw [requestIds_append]
      apply List.mem_append_right
      simp [requestIds, reqIds]
      exact ⟨r, hr, rfl⟩
    simp [h1, ha, hb]
  · simp only [requestsAllAnswered, List.all_eq_true] at h2 ⊢
    intro i hi
    rw [requestIds_append, requestIds_append, actStep_requestIds] at hi
    rw [resultIds_append, resultIds_append, actStep_resultIds]
    have hmem : i ∈ requestIds conv ∨ i ∈ reqs.map (fun r => r.id) := by
      rcases List.mem_append.mp (by simpa using hi) with h | h
      · exact Or.inl h
      · right; simpa [requestIds, reqIds] using h
    rcases hmem with h | h
    · have := h2 i (by simpa using h)
      have hres : i ∈ resultIds conv := by simpa using this
      simp [hres]
    · simp [h]

/-- The loop preserves the conversation invariants from any
well-formed starting conversation, whatever the outcome. -/
theorem runLoop_conv_invariant (model : ModelClient)
    (tool : ToolAdapter) :
    ∀ fuel conv reasons acts,
      resultsAnswerPrior [] conv = true →
      requestsAllAnswered conv = true →
      resultsAnswerPrior []
        (runLoop model tool fuel conv reasons acts).conv = true ∧
      requestsAllAnswered
        (runLoop model tool fuel conv reasons acts).conv = true := by
  intro fuel
  induction fuel with
  | zero => intro conv reasons acts h1 h2; exact ⟨h1, h2⟩
  | succ n ih =>
    intro conv reasons acts h1 h2
    by_cases he : (model reasons conv).2.isEmpty = true
    · have hnil : (model reasons conv).2 = [] := by simpa using he
      have hconv : (runLoop model tool (n + 1) conv reasons acts).conv =
          conv ++ [Message.assistant (model reasons conv).1
            (model reasons conv).2] := by
        simp [runLoop, he]
      rw [hconv, hnil]
      have hstep := step_preserves_invariants tool conv
        (model reasons conv).1 [] h1 h2
      simpa [actStep] using hstep
    · have hconv : runLoop model tool (n + 1) conv reasons acts =
          runLoop model tool n
            ((conv ++ [Message.assistant (model reasons conv).1
                (model reasons conv).2]) ++ actStep tool (model reasons conv).2)
            (reasons + 1) (acts + 1) := by
        simp [runLoop, he]
      rw [hconv]
      have hstep := step_preserves_invariants tool conv
        (model reasons conv).1 (model reasons conv).2 h1 h2
      exact ih _ (reasons + 1) (acts + 1) hstep.1 hstep.2

/-- In a duplicate-free list, the matches of a member are exactly
one. -/
theorem filter_length_one {i : String} :
    ∀ {l : List String}, i ∈ l → l.Nodup →
      (l.filter (fun j => decide (j = i))).length = 1 := by
  intro l
  induction l with
  | nil => intro hm _; cases hm
  | cons a rest ih =>
    intro hm hn
    rcases List.nodup_cons.mp hn with ⟨hna, hnr⟩
    by_cases ha : a = i
    · subst ha
      have hrest : rest.filter (fun j => decide (j = a)) = [] := by
        apply List.filter_eq_nil_iff.mpr
        intro x hx
        simp only [decide_eq_true_eq]
        intro hxa
        exact hna (hxa ▸ hx)
      simp [List.filter_cons, hrest]
    · have hm' : i ∈ rest := by
        rcases List.mem_cons.mp hm with h | h
        · exact absurd h.symm ha
        · exact h
      simp [List.filter_cons, ha, ih hm' hnr]

/-- When all request ids of a conversation are pairwise distinct, the
prior-request check strengthens to the exactly-one check. -/
theorem resultsAnswerPrior_imp_unique :
    ∀ (conv : List Message) (seen : List String),
      resultsAnswerPrior seen conv = true →
      (seen ++ requestIds conv).Nodup →
      resultsMatchUnique seen conv = true := by
  intro conv
  induction conv with
  | nil => intro seen h hn; rfl
  | cons m rest ih =>
    intro seen h hn
    cases m with
    | user parts =>
      simp [resultsAnswerPrior] at h
      simp [resultsMatchUnique]
      exact ih seen h (by simpa [requestIds, reqIds] using hn)
    | assistant c reqs =>
      simp [resultsAnswerPrior] at h
      simp [resultsMatchUnique]
      exact ih (seen ++ reqs.map (fun r => r.id)) h
        (by simpa [requestIds, reqIds, List.append_assoc] using hn)
    | toolResult i c =>
      simp [resultsAnswerPrior] at h
      obtain ⟨hc, hrest⟩ := h
      have hn' : (seen ++ requestIds rest).Nodup := by
        simpa [requestIds, reqIds] using hn
      have hmem : i ∈ seen := by simpa using hc
      have hnd : seen.Nodup := hn'.of_append_left
      simp [resultsMatchUnique, filter_length_one hmem hnd]
      exact ih seen hrest hn'

/-- C7: for every conversation produced by a terminated run of the
loop starting from a well-formed conversation, every tool-result
message answers a prior tool-call request (exactly one when the
request ids are pairwise distinct), and every tool-call request has a
matching tool-result message by the time the loop stops. -/
theorem c7_correlation_invariant (model : ModelClient)
    (tool : ToolAdapter) (fuel : Nat) (conv : List Message)
    (reasons acts : Nat)
    (h1 : resultsAnswerPrior [] conv = true)
    (h2 : requestsAllAnswered conv = true) :
    resultsAnswerPrior []
      (runLoop model tool fuel conv reasons acts).conv = true ∧
    ((requestIds (runLoop model tool fuel conv reasons acts).conv).Nodup →
      resultsMatchUnique []
        (runLoop model tool fuel conv reasons acts).conv = true) ∧
    requestsAllAnswered
      (runLoop model tool fuel conv reasons acts).conv = true := by
  obtain ⟨ha, hb⟩ :=
    runLoop_conv_invariant model tool fuel conv reasons acts h1 h2
  exact ⟨ha,
    fun hnd => resultsAnswerPrior_imp_unique _ [] ha (by simpa using hnd),
    hb⟩

/-- Witness for C7 on the two-tool stub run: both invariants hold of
the produced conversation, and its request ids are distinct so each
result matches exactly one prior request. -/
theorem c7_correlation_invariant_witness :
    resultsAnswerPrior [] (runLoop stubModel2 okTool 5 conv0 0 0).conv
      = true ∧
    resultsMatchUnique [] (runLoop stubModel2 okTool 5 conv0 0 0).conv
      = true ∧
    requestsAllAnswered (runLoop stubModel2 okTool 5 conv0 0 0).conv
      = true := by
  have h := c7_correlation_invariant stubModel2 okTool 5 conv0 0 0
    (by decide) (by decide)
  exact ⟨h.1, h.2.1 (by decide), h.2.2⟩

/-- C8: two tool-call requests issued in one ACT step with ids `"a"`
then `"b"` are answered by tool-result messages appended to the
conversation in exactly that order (the ACT step maps over the
requests in declaration order; the loop model is sequential, so no
completion order can reorder them). -/
theorem c8_results_in_declaration_order (tool : ToolAdapter)
    (ra rb : ToolCallRequest) (ha : ra.id = "a") (hb : rb.id = "b") :
    actStep tool [ra, rb] =
      [Message.toolResult "a" (toolOutput tool ra),
       Message.toolResult "b" (toolOutput tool rb)] ∧
    ∀ (model : ModelClient) (c : String) (conv : List Message)
      (fuel reasons acts : Nat), model reasons conv = (c, [ra, rb]) →
      runLoop model tool (fuel + 1) conv reasons acts =
        runLoop model tool fuel
          (conv ++ [Message.assistant c [ra, rb],
            Message.toolResult "a" (toolOutput tool ra),
            Message.toolResult "b" (toolOutput tool rb)])
          (reasons + 1) (acts + 1) := by
  constructor
  · simp [actStep, ha, hb]
  · intro model c conv fuel reasons acts hm
    simp [runLoop, hm, actStep, ha, hb]

/-- Witness for C8: with the always-succeeding stub tool and concrete
requests with ids `"a"` and `"b"`, the ACT step produces the results
in order a, b. -/
theorem c8_results_in_declaration_order_witness :
    actStep okTool
      [⟨"a", "duckduckgo_search", "q1"⟩, ⟨"b", "duckduckgo_search", "q2"⟩] =
      [Message.toolResult "a" "search result",
       Message.toolResult "b" "search result"] := by
  have h := (c8_results_in_declaration_order okTool
    ⟨"a", "duckduckgo_search", "q1"⟩ ⟨"b", "duckduckgo_search", "q2"⟩
    rfl rfl).1
  simpa [toolOutput, okTool] using h

end MedImaging
